import Mathlib

/-!
Verification of the frame-sampling / region-interpolation / mosaic /
validation core of the agent-example repository.

The Python source is shallowly embedded: pure fragments become Lean
functions over `Nat`/`Int`/`ℚ` (floats are modelled as rationals),
OpenCV images become functions `Nat → Nat → Nat`, file-system and
codec effects become explicit parameters, and Python exceptions become
`Option`/`Except` results.
-/

/-- `DetectionRegion` from `core/llm_client.py`: a detection with a
1-based frame id, a pixel-space bounding box `(x, y, w, h)` and a
confidence.  `confidence` is a Python float, modelled as a rational. -/
structure DetectionRegion where
  frame_id : Int
  object_type : String
  bbox : Int × Int × Int × Int
  confidence : ℚ
  description : String
  track_id : Option Int
deriving DecidableEq

/-- Lookup in the region table (the Python dict `frame_regions_map`,
modelled as an association list in insertion order with distinct keys):
`frame_regions_map[k]`, `none` when `k` is not a key. -/
def lookupTable (table : List (Int × List DetectionRegion)) (k : Int) :
    Option (List DetectionRegion) :=
  (table.find? (fun p => p.1 == k)).map Prod.snd

/-- `sorted_frame_ids = sorted(frame_regions_map.keys())` from
`validate_tracking_interpolation` in `utils/tracking_validator.py`. -/
def sortedFrameIds (table : List (Int × List DetectionRegion)) : List Int :=
  (table.map Prod.fst).insertionSort (· ≤ ·)

/-- Python's `min(xs, key=key)`: the first element attaining the least
key, `none` on an empty list (where Python raises `ValueError`). -/
def pyMinBy (key : Int → Int) : List Int → Option Int
  | [] => none
  | x :: xs => some (xs.foldl (fun best y => if key y < key best then y else best) x)

/-- `simple_interpolation_func` from `examples/validation_demo.py`
(the repository's region interpolator): exact key hit returns that
key's regions, otherwise the regions of the key closest to `frame_id`
(`min(sorted_frame_ids, key=lambda x: abs(x - frame_id))`).  `none`
models the `ValueError` Python's `min` raises on an empty table. -/
def simple_interpolation_func (frame_id : Int)
    (table : List (Int × List DetectionRegion)) : Option (List DetectionRegion) :=
  match lookupTable table frame_id with
  | some rs => some rs
  | none =>
    match pyMinBy (fun x => |x - frame_id|) (sortedFrameIds table) with
    | none => none
    | some k => lookupTable table k

/-- The clamp step of `VideoProcessor._apply_mosaic_to_frame`
(`utils/video_processor.py` lines 213–216): coordinates clamped into
the frame, width/height clamped so the region stays inside and is at
least 1×1.  `frameW = frame.shape[1]`, `frameH = frame.shape[0]`. -/
def clampRegion (frameW frameH : Nat) (bbox : Int × Int × Int × Int) :
    Int × Int × Int × Int :=
  let x := max 0 (min bbox.1 ((frameW : Int) - 1))
  let y := max 0 (min bbox.2.1 ((frameH : Int) - 1))
  let w := max 1 (min bbox.2.2.1 ((frameW : Int) - x))
  let h := max 1 (min bbox.2.2.2 ((frameH : Int) - y))
  (x, y, w, h)

/-- Demo region held at key 10 of the scenario-B table. -/
def demoR1 : DetectionRegion :=
  ⟨10, "phone", (1000, 500, 200, 400), 98 / 100, "demo", none⟩

/-- Demo region held at key 50 of the scenario-B table. -/
def demoR2 : DetectionRegion :=
  ⟨50, "phone", (1200, 600, 220, 420), 99 / 100, "demo", none⟩

/-- The scenario-B region table `{10: [R1], 50: [R2]}`. -/
def demoTable : List (Int × List DetectionRegion) :=
  [(10, [demoR1]), (50, [demoR2])]

/-- A key present in the table has a region list. -/
lemma lookupTable_isSome {table : List (Int × List DetectionRegion)} {k : Int}
    (h : k ∈ table.map Prod.fst) : ∃ rs, lookupTable table k = some rs := by
  induction table with
  | nil => simp at h
  | cons p t ih =>
    by_cases hp : p.1 = k
    · exact ⟨p.2, by simp [lookupTable, List.find?, hp]⟩
    · have hk : k ∈ t.map Prod.fst := by
        rcases List.mem_map.mp h with ⟨q, hq, hq2⟩
        rcases List.mem_cons.mp hq with h1 | h2
        · exact absurd (h1 ▸ hq2) hp
        · exact List.mem_map.mpr ⟨q, h2, hq2⟩
      rcases ih hk with ⟨rs, hrs⟩
      refine ⟨rs, ?_⟩
      have hb : (p.1 == k) = false := by simp [hp]
      simpa [lookupTable, List.find?, hb] using hrs

/-- A key absent from the table has no region list. -/
lemma lookupTable_eq_none {table : List (Int × List DetectionRegion)} {k : Int}
    (h : k ∉ table.map Prod.fst) : lookupTable table k = none := by
  unfold lookupTable
  rw [List.find?_eq_none.mpr]
  · rfl
  · intro p hp
    simp only [beq_iff_eq]
    intro hk
    exact h (List.mem_map.mpr ⟨p, hp, hk⟩)

/-- The fold inside `pyMinBy`, on a sorted list: the result is a member,
attains the least key, and is the least member among those attaining it
(Python's `min` keeps the first minimum; on an ascending list that is
the smallest such element). -/
lemma foldlMin_spec (key : Int → Int) :
    ∀ (xs : List Int) (x : Int), List.Sorted (· ≤ ·) (x :: xs) →
      (xs.foldl (fun best y => if key y < key best then y else best) x) ∈ x :: xs ∧
      (∀ y ∈ x :: xs, key (xs.foldl (fun best y => if key y < key best then y else best) x) ≤ key y) ∧
      (∀ y ∈ x :: xs, key y = key (xs.foldl (fun best y => if key y < key best then y else best) x) →
        (xs.foldl (fun best y => if key y < key best then y else best) x) ≤ y) := by
  intro xs
  induction xs with
  | nil =>
    intro x _
    refine ⟨List.mem_singleton.mpr rfl, ?_, ?_⟩
    · intro y hy
      rw [List.mem_singleton.mp hy]
      simp [List.foldl]
    · intro y hy _
      rw [List.mem_singleton.mp hy]
      simp [List.foldl]
  | cons z zs ih =>
    intro x hs
    have hxz : x ≤ z := (List.sorted_cons.mp hs).1 z (List.mem_cons_self z zs)
    have hxzs : ∀ y ∈ zs, x ≤ y := fun y hy =>
      (List.sorted_cons.mp hs).1 y (List.mem_cons_of_mem z hy)
    have hzzs : List.Sorted (· ≤ ·) (z :: zs) := (List.sorted_cons.mp hs).2
    set x' := if key z < key x then z else x with hx'
    have hsort' : List.Sorted (· ≤ ·) (x' :: zs) := by
      rw [hx']
      split
      · exact hzzs
      · exact List.sorted_cons.mpr ⟨hxzs, (List.sorted_cons.mp hzzs).2⟩
    have hfold : (z :: zs).foldl (fun best y => if key y < key best then y else best) x =
        zs.foldl (fun best y => if key y < key best then y else best) x' := by
      simp [List.foldl, hx']
    obtain ⟨hmem, hmin, hfirst⟩ := ih x' hsort'
    set m := zs.foldl (fun best y => if key y < key best then y else best) x' with hm
    have hkx' : key x' ≤ key x ∧ key x' ≤ key z := by
      rw [hx']; split
      · constructor
        · exact le_of_lt (by assumption)
        · exact le_refl _
      · constructor
        · exact le_refl _
        · exact le_of_not_lt (by assumption)
    have hmkx' : key m ≤ key x' := hmin x' (List.mem_cons_self x' zs)
    refine ⟨?_, ?_, ?_⟩
    · rw [hfold]
      rcases List.mem_cons.mp hmem with h1 | h2
      · rw [h1, hx']
        split
        · exact List.mem_cons_of_mem x (List.mem_cons_self z zs)
        · exact List.mem_cons_self x (z :: zs)
      · exact List.mem_cons_of_mem x (List.mem_cons_of_mem z h2)
    · intro y hy
      rw [hfold]
      rcases List.mem_cons.mp hy with h1 | h1
      · exact h1 ▸ le_trans hmkx' hkx'.1
      rcases List.mem_cons.mp h1 with h2 | h2
      · exact h2 ▸ le_trans hmkx' hkx'.2
      · exact hmin y (List.mem_cons_of_mem x' h2)
    · intro y hy hkey
      rw [hfold] at hkey ⊢
      rcases List.mem_cons.mp hy with h1 | h1
      · -- y = x
        subst h1
        rw [hx'] at hmkx' hkx' hmem hmin hfirst
        by_cases hc : key z < key y
        · -- x' = z, so key m ≤ key z < key x = key y, contradicting hkey
          simp only [if_pos hc] at hmkx'
          rw [← hkey] at hmkx'
          exact absurd (lt_of_le_of_lt hmkx' hc) (lt_irrefl _)
        · simp only [if_neg hc] at hmem hmin hfirst
          exact hfirst y (List.mem_cons_self y zs) hkey
      rcases List.mem_cons.mp h1 with h2 | h2
      · -- y = z
        subst h2
        by_cases hc : key y < key x
        · -- x' = z = y
          rw [hx'] at hfirst
          simp only [if_pos hc] at hfirst
          exact hfirst y (List.mem_cons_self y zs) hkey
        · -- x' = x and key x ≤ key y; with key y = key m ≤ key x' = key x
          rw [hx'] at hmkx' hmem hmin hfirst
          simp only [if_neg hc] at hmkx' hmem hmin hfirst
          have hxy : key x ≤ key y := le_of_not_lt hc
          have hyx : key y ≤ key x := hkey ▸ hmkx'
          have hmx : m ≤ x := hfirst x (List.mem_cons_self x zs) ((le_antisymm hxy hyx).trans hkey)
          exact le_trans hmx hxz
      · exact hfirst y (List.mem_cons_of_mem x' h2) hkey

/-- **C1.** `simple_interpolation_func` on a non-empty table: an exact
key hit returns that key's region list verbatim; otherwise the key with
the least absolute distance to `frame_id` is chosen, with ties between
equidistant keys broken toward the smaller key.  In particular, on the
table `{10: [R1], 50: [R2]}`, resolving frame 30 yields `[R1]`. -/
theorem simple_interpolation_nearest_key (fid : Int)
    (table : List (Int × List DetectionRegion))
    (hne : table ≠ []) :
    (∃ k rs, simple_interpolation_func fid table = some rs ∧
      lookupTable table k = some rs ∧
      k ∈ table.map Prod.fst ∧
      (∀ k' ∈ table.map Prod.fst, |k - fid| ≤ |k' - fid|) ∧
      (∀ k' ∈ table.map Prod.fst, |k' - fid| = |k - fid| → k ≤ k') ∧
      (fid ∈ table.map Prod.fst → k = fid)) ∧
    simple_interpolation_func 30 demoTable = some [demoR1] := by
  constructor
  · by_cases hmem : fid ∈ table.map Prod.fst
    · rcases lookupTable_isSome hmem with ⟨rs, hrs⟩
      refine ⟨fid, rs, ?_, hrs, hmem, ?_, ?_, fun _ => rfl⟩
      · simp [simple_interpolation_func, hrs]
      · intro k' _
        simp [abs_nonneg]
      · intro k' _ hk'
        have : k' - fid = 0 := by
          have h0 : |k' - fid| = 0 := by simpa using hk'
          exact abs_eq_zero.mp h0
        omega
    · have hlook : lookupTable table fid = none := lookupTable_eq_none hmem
      have hperm : List.Perm (sortedFrameIds table) (table.map Prod.fst) :=
        List.perm_insertionSort (· ≤ ·) (table.map Prod.fst)
      have hsorted : List.Sorted (· ≤ ·) (sortedFrameIds table) :=
        List.sorted_insertionSort (· ≤ ·) (table.map Prod.fst)
      have hkeysne : table.map Prod.fst ≠ [] := by
        intro h
        exact hne (List.map_eq_nil_iff.mp h)
      have hsne : sortedFrameIds table ≠ [] := by
        intro h
        apply hkeysne
        have hlen := hperm.length_eq
        rw [h] at hlen
        exact List.eq_nil_of_length_eq_zero hlen.symm
      obtain ⟨x, xs, hxxs⟩ : ∃ x xs, sortedFrameIds table = x :: xs := by
        cases hx : sortedFrameIds table with
        | nil => exact absurd hx hsne
        | cons a l => exact ⟨a, l, rfl⟩
      rw [hxxs] at hperm hsorted
      obtain ⟨hmemm, hminm, hfirstm⟩ := foldlMin_spec (fun t => |t - fid|) xs x hsorted
      refine ⟨xs.foldl (fun best y =>
          if |y - fid| < |best - fid| then y else best) x, ?_⟩
      have hmkeys : (xs.foldl (fun best y =>
          if |y - fid| < |best - fid| then y else best) x) ∈ table.map Prod.fst :=
        hperm.mem_iff.mp hmemm
      rcases lookupTable_isSome hmkeys with ⟨rs, hrs⟩
      refine ⟨rs, ?_, hrs, hmkeys, ?_, ?_, fun h => absurd h hmem⟩
      · simp only [simple_interpolation_func, hlook, hxxs, pyMinBy]
        exact hrs
      · intro k' hk'
        exact hminm k' (hperm.mem_iff.mpr hk')
      · intro k' hk' hkey
        exact hfirstm k' (hperm.mem_iff.mpr hk') hkey
  · rfl

/-- Witness for C1: the scenario-B tie case, table `{10: [R1], 50: [R2]}`
queried at frame 30 (both keys at distance 20), resolves to `[R1]`. -/
theorem simple_interpolation_nearest_key_witness :
    simple_interpolation_func 30 demoTable = some [demoR1] :=
  (simple_interpolation_nearest_key 30 demoTable (by decide)).2

/-- **C2 counterexample.** Resolving frame 1 against the empty region
table does not return the empty region list: Python's `min` over the
empty key list raises `ValueError` (modelled by `none`). -/
theorem simple_interpolation_empty_table_not_empty_list :
    simple_interpolation_func 1 ([] : List (Int × List DetectionRegion)) ≠
      some ([] : List DetectionRegion) := by
  decide

/-- **C2 (amended).** For every queried frame id, resolving against an
empty region table fails (Python's `min` of the empty `sorted_frame_ids`
raises `ValueError`) instead of returning an empty region list. -/
theorem simple_interpolation_empty_table_fails (fid : Int) :
    simple_interpolation_func fid ([] : List (Int × List DetectionRegion)) = none :=
  rfl

/-- `FrameInfo` from `core/llm_client.py`: one extracted frame.
`timestamp` is a Python float, modelled as a rational. -/
structure FrameInfo where
  frame_id : Nat
  timestamp : ℚ
  image_path : String
  width : Nat
  height : Nat
deriving DecidableEq

/-- The per-frame extraction decision of `VideoProcessor.extract_frames`
(`utils/video_processor.py` lines 69–81): a frame is a candidate when
`frame_count % sample_rate == 0`; with motion detection on and a
previous emitted frame recorded, a candidate is dropped again when its
motion score is below the fixed threshold 1000 and at least one frame
has been extracted. -/
def shouldExtractFlag {α β : Type} (ms : β → α → Nat) (useMotion : Bool)
    (sampleRate frameCount extractedCount : Nat) (prevFrame : Option β)
    (frame : α) : Bool :=
  if frameCount % sampleRate = 0 then
    if useMotion then
      match prevFrame with
      | some prev => if ms prev frame < 1000 ∧ 0 < extractedCount then false else true
      | none => true
    else true
  else false

/-- The `while cap.isOpened() and extracted_count < max_frames` loop of
`VideoProcessor.extract_frames`: walks the decoded frames carrying
`frame_count`, `extracted_count` and `prev_frame` (the grayscale of the
last emitted frame, kept only when motion detection is on).  An emitted
frame gets `frame_id = extracted_count + 1`,
`timestamp = frame_count / fps` and path `frame_<id>.jpg`. -/
def extractLoop {α β : Type} (gray : α → β) (ms : β → α → Nat) (fps : ℚ)
    (width height sampleRate maxFrames : Nat) (useMotion : Bool) :
    List α → Nat → Nat → Option β → List FrameInfo
  | [], _, _, _ => []
  | frame :: rest, frameCount, extractedCount, prevFrame =>
    if extractedCount < maxFrames then
      if shouldExtractFlag ms useMotion sampleRate frameCount extractedCount prevFrame frame then
        { frame_id := extractedCount + 1,
          timestamp := (frameCount : ℚ) / fps,
          image_path := "frame_" ++ toString (extractedCount + 1) ++ ".jpg",
          width := width, height := height } ::
          extractLoop gray ms fps width height sampleRate maxFrames useMotion rest
            (frameCount + 1) (extractedCount + 1)
            (if useMotion then some (gray frame) else prevFrame)
      else
        extractLoop gray ms fps width height sampleRate maxFrames useMotion rest
          (frameCount + 1) extractedCount prevFrame
    else []

/-- `VideoProcessor.extract_frames` (`utils/video_processor.py` lines
17–108) on an opened video.  The video is a list of decoded frames of
an abstract type `α`; `gray` models `cv2.cvtColor(·, COLOR_BGR2GRAY)`
and `ms` models `_calculate_motion_score` on a grayscale previous frame
and a colour current frame.  Python's falsy-defaulting
`sample_rate or DEFAULT_SAMPLE_RATE` / `max_frames or
MAX_FRAMES_PER_REQUEST` (defaults 30 and 20 from `config.py`) is kept:
a `None` argument is modelled as 0, which is likewise falsy. -/
def extract_frames {α β : Type} (gray : α → β) (ms : β → α → Nat) (video : List α)
    (fps : ℚ) (width height sample_rate max_frames : Nat)
    (use_motion_detection : Bool) : List FrameInfo :=
  let sr := if sample_rate = 0 then 30 else sample_rate
  let mf := if max_frames = 0 then 20 else max_frames
  extractLoop gray ms fps width height sr mf use_motion_detection video 0 0 none

/-- An accepted candidate is a candidate: the flag is set only when
`frame_count % sample_rate = 0`. -/
lemma shouldExtractFlag_mod {α β : Type} {ms : β → α → Nat} {useMotion : Bool}
    {sampleRate frameCount extractedCount : Nat} {prevFrame : Option β} {frame : α}
    (h : shouldExtractFlag ms useMotion sampleRate frameCount extractedCount prevFrame frame = true) :
    frameCount % sampleRate = 0 := by
  by_contra hmod
  simp [shouldExtractFlag, hmod] at h

/-- The loop emits at most `maxFrames - extractedCount` more frames. -/
lemma extractLoop_length {α β : Type} (gray : α → β) (ms : β → α → Nat) (fps : ℚ)
    (w h sr mf : Nat) (motion : Bool) :
    ∀ (frames : List α) (fc ec : Nat) (pf : Option β),
      (extractLoop gray ms fps w h sr mf motion frames fc ec pf).length ≤ mf - ec := by
  intro frames
  induction frames with
  | nil => intro fc ec pf; simp [extractLoop]
  | cons frame rest ih =>
    intro fc ec pf
    by_cases hec : ec < mf
    · by_cases hflag : shouldExtractFlag ms motion sr fc ec pf frame = true
      · have htail := ih (fc + 1) (ec + 1) (if motion then some (gray frame) else pf)
        simp only [extractLoop, if_pos hec, if_pos hflag, List.length_cons]
        omega
      · have htail := ih (fc + 1) ec pf
        simp only [extractLoop, if_pos hec, Bool.not_eq_true] at hflag ⊢
        rw [hflag]
        simpa using htail
    · simp [extractLoop, hec]

/-- The loop's emitted frame ids continue `extracted_count + 1`,
`extracted_count + 2`, ... with no gaps. -/
lemma extractLoop_ids {α β : Type} (gray : α → β) (ms : β → α → Nat) (fps : ℚ)
    (w h sr mf : Nat) (motion : Bool) :
    ∀ (frames : List α) (fc ec : Nat) (pf : Option β),
      (extractLoop gray ms fps w h sr mf motion frames fc ec pf).map FrameInfo.frame_id =
        List.range' (ec + 1) (extractLoop gray ms fps w h sr mf motion frames fc ec pf).length := by
  intro frames
  induction frames with
  | nil => intro fc ec pf; simp [extractLoop]
  | cons frame rest ih =>
    intro fc ec pf
    by_cases hec : ec < mf
    · by_cases hflag : shouldExtractFlag ms motion sr fc ec pf frame = true
      · have htail := ih (fc + 1) (ec + 1) (if motion then some (gray frame) else pf)
        simp only [extractLoop, if_pos hec, if_pos hflag, List.map_cons, List.length_cons]
        rw [List.range'_succ]
        exact congrArg (List.cons (ec + 1)) htail
      · have htail := ih (fc + 1) ec pf
        simp only [extractLoop, if_pos hec, Bool.not_eq_true] at hflag ⊢
        rw [hflag]
        simpa using htail
    · simp [extractLoop, hec]

/-- Every emitted sample's timestamp is its decoded frame index divided
by fps, and that index is a sampling candidate within the stream. -/
lemma extractLoop_timestamp {α β : Type} (gray : α → β) (ms : β → α → Nat) (fps : ℚ)
    (w h sr mf : Nat) (motion : Bool) :
    ∀ (frames : List α) (fc ec : Nat) (pf : Option β),
      ∀ s ∈ extractLoop gray ms fps w h sr mf motion frames fc ec pf,
        ∃ i, fc ≤ i ∧ i < fc + frames.length ∧ i % sr = 0 ∧ s.timestamp = (i : ℚ) / fps := by
  intro frames
  induction frames with
  | nil => intro fc ec pf s hs; simp [extractLoop] at hs
  | cons frame rest ih =>
    intro fc ec pf s hs
    by_cases hec : ec < mf
    · by_cases hflag : shouldExtractFlag ms motion sr fc ec pf frame = true
      · simp only [extractLoop, if_pos hec, if_pos hflag, List.mem_cons] at hs
        rcases hs with hs | hs
        · refine ⟨fc, le_refl fc, by simp, shouldExtractFlag_mod hflag, ?_⟩
          rw [hs]
        · rcases ih (fc + 1) (ec + 1) (if motion then some (gray frame) else pf) s hs with
            ⟨i, hi1, hi2, hi3, hi4⟩
          exact ⟨i, by omega, by simp only [List.length_cons]; omega, hi3, hi4⟩
      · simp only [extractLoop, if_pos hec, Bool.not_eq_true] at hflag hs
        rw [hflag] at hs
        simp only [Bool.false_eq_true, if_false] at hs
        rcases ih (fc + 1) ec pf s hs with ⟨i, hi1, hi2, hi3, hi4⟩
        exact ⟨i, by omega, by simp only [List.length_cons]; omega, hi3, hi4⟩
    · simp [extractLoop, hec] at hs

set_option maxRecDepth 8000 in
/-- **C3.** `extract_frames` returns an ordered sequence of at most
`max_frames` samples whose frame ids are the contiguous integers
1, 2, 3, ... with no duplicates, each sample's timestamp being its
decoded frame index divided by fps (the index a multiple of the sample
rate).  In particular a 100-frame video with `sample_rate=30`,
`max_frames=10`, motion detection off yields exactly 4 frames with ids
1–4 taken at decoded indices 0, 30, 60, 90. -/
theorem extract_frames_contract {α β : Type} (gray : α → β) (ms : β → α → Nat)
    (video : List α) (fps : ℚ) (w h sr mf : Nat) (motion : Bool)
    (hsr : 0 < sr) (hmf : 0 < mf) :
    (extract_frames gray ms video fps w h sr mf motion).length ≤ mf ∧
    (extract_frames gray ms video fps w h sr mf motion).map FrameInfo.frame_id =
      List.range' 1 (extract_frames gray ms video fps w h sr mf motion).length ∧
    (∀ s ∈ extract_frames gray ms video fps w h sr mf motion,
      ∃ i, i < video.length ∧ i % sr = 0 ∧ s.timestamp = (i : ℚ) / fps) ∧
    extract_frames (fun a : Unit => a) (fun _ _ => 0) (List.replicate 100 ()) 1
        1920 1080 30 10 false =
      [⟨1, ((0 : Nat) : ℚ) / 1, "frame_1.jpg", 1920, 1080⟩,
       ⟨2, ((30 : Nat) : ℚ) / 1, "frame_2.jpg", 1920, 1080⟩,
       ⟨3, ((60 : Nat) : ℚ) / 1, "frame_3.jpg", 1920, 1080⟩,
       ⟨4, ((90 : Nat) : ℚ) / 1, "frame_4.jpg", 1920, 1080⟩] := by
  have hsr' : sr ≠ 0 := Nat.pos_iff_ne_zero.mp hsr
  have hmf' : mf ≠ 0 := Nat.pos_iff_ne_zero.mp hmf
  refine ⟨?_, ?_, ?_, ?_⟩
  · simpa [extract_frames, hsr', hmf'] using
      extractLoop_length gray ms fps w h sr mf motion video 0 0 none
  · simpa [extract_frames, hsr', hmf'] using
      extractLoop_ids gray ms fps w h sr mf motion video 0 0 none
  · intro s hs
    have hs' : s ∈ extractLoop gray ms fps w h sr mf motion video 0 0 none := by
      simpa [extract_frames, hsr', hmf'] using hs
    rcases extractLoop_timestamp gray ms fps w h sr mf motion video 0 0 none s hs' with
      ⟨i, _, hi2, hi3, hi4⟩
    exact ⟨i, by simpa using hi2, hi3, hi4⟩
  · rfl

/-- Witness for C3: the 100-frame scenario-A video at
`sample_rate=30`, `max_frames=10`, motion detection off produces
exactly the 4 samples at decoded indices 0, 30, 60, 90. -/
theorem extract_frames_contract_witness :
    extract_frames (fun a : Unit => a) (fun _ _ => 0) (List.replicate 100 ()) 1
        1920 1080 30 10 false =
      [⟨1, ((0 : Nat) : ℚ) / 1, "frame_1.jpg", 1920, 1080⟩,
       ⟨2, ((30 : Nat) : ℚ) / 1, "frame_2.jpg", 1920, 1080⟩,
       ⟨3, ((60 : Nat) : ℚ) / 1, "frame_3.jpg", 1920, 1080⟩,
       ⟨4, ((90 : Nat) : ℚ) / 1, "frame_4.jpg", 1920, 1080⟩] :=
  (extract_frames_contract (fun a : Unit => a) (fun _ _ => 0) (List.replicate 100 ())
    1 1920 1080 30 10 false (by decide) (by decide)).2.2.2

/-- Under everywhere-low motion the loop emits nothing more once one
frame has been extracted: every candidate is rejected. -/
lemma extractLoop_static {α β : Type} (gray : α → β) (ms : β → α → Nat) (fps : ℚ)
    (w h sr mf : Nat) (hms : ∀ p c, ms p c < 1000) :
    ∀ (frames : List α) (fc ec : Nat) (p : β), 0 < ec →
      extractLoop gray ms fps w h sr mf true frames fc ec (some p) = [] := by
  intro frames
  induction frames with
  | nil => intro fc ec p _; simp [extractLoop]
  | cons frame rest ih =>
    intro fc ec p hec
    have hflag : shouldExtractFlag ms true sr fc ec (some p) frame = false := by
      unfold shouldExtractFlag
      by_cases hmod : fc % sr = 0
      · simp [hmod, hms p frame, hec]
      · simp [hmod]
    by_cases hlt : ec < mf
    · simp only [extractLoop, if_pos hlt, hflag, Bool.false_eq_true, if_false]
      exact ih (fc + 1) ec p hec
    · simp [extractLoop, hlt]

/-- **C4.** Motion-aware extraction: (i) on a completely static video
(every motion score below the threshold 1000) exactly one frame is
emitted; (ii) the very first candidate is always emitted regardless of
motion, so the result is never empty; (iii) with a previous emitted
frame recorded, a candidate is rejected if and only if at least one
frame has been emitted and its motion score against that previous frame
is below the threshold, and with no previous frame a candidate is
always accepted. -/
theorem extract_frames_motion_aware {α β : Type} (gray : α → β) (ms : β → α → Nat)
    (f : α) (rest : List α) (fps : ℚ) (w h sr mf : Nat)
    (hsr : 0 < sr) (hmf : 0 < mf) :
    ((∀ p c, ms p c < 1000) →
      extract_frames gray ms (f :: rest) fps w h sr mf true =
        [⟨1, 0, "frame_1.jpg", w, h⟩]) ∧
    extract_frames gray ms (f :: rest) fps w h sr mf true ≠ [] ∧
    (∀ (fc ec : Nat) (p : β) (c : α), fc % sr = 0 →
      ((shouldExtractFlag ms true sr fc ec (some p) c = false) ↔
        (0 < ec ∧ ms p c < 1000)) ∧
      shouldExtractFlag ms true sr fc ec none c = true) := by
  have hsr' : sr ≠ 0 := Nat.pos_iff_ne_zero.mp hsr
  have hmf' : mf ≠ 0 := Nat.pos_iff_ne_zero.mp hmf
  have hflag0 : shouldExtractFlag ms true sr 0 0 none f = true := by
    simp [shouldExtractFlag]
  have hstep : extract_frames gray ms (f :: rest) fps w h sr mf true =
      { frame_id := 1, timestamp := ((0 : Nat) : ℚ) / fps,
        image_path := "frame_1.jpg", width := w, height := h } ::
        extractLoop gray ms fps w h sr mf true rest 1 1 (some (gray f)) := by
    simp [extract_frames, hsr', hmf', extractLoop, hmf, hflag0]
    rfl
  refine ⟨?_, ?_, ?_⟩
  · intro hms
    rw [hstep, extractLoop_static gray ms fps w h sr mf hms rest 1 1 (gray f) Nat.one_pos]
    simp
  · rw [hstep]
    simp
  · intro fc ec p c hmod
    constructor
    · by_cases hcond : ms p c < 1000 ∧ 0 < ec
      · simp only [shouldExtractFlag, if_pos hmod, if_pos hcond]
        exact ⟨fun _ => ⟨hcond.2, hcond.1⟩, fun _ => rfl⟩
      · simp only [shouldExtractFlag, if_pos hmod, if_neg hcond]
        constructor
        · intro hfalse
          exact absurd hfalse (by simp)
        · intro hr
          exact absurd ⟨hr.2, hr.1⟩ hcond
    · simp [shouldExtractFlag, hmod]

/-- Witness for C4: a 3-frame video whose motion score is identically 0
(completely static), sampled at every frame with motion detection on,
emits exactly one frame. -/
theorem extract_frames_motion_aware_witness :
    extract_frames (fun a : Unit => a) (fun _ _ => 0) [(), (), ()] 1 4 4 1 5 true =
      [⟨1, 0, "frame_1.jpg", 4, 4⟩] :=
  (extract_frames_motion_aware (fun a : Unit => a) (fun _ _ => 0) () [(), ()] 1 4 4 1 5
    (by decide) (by decide)).1 (fun _ _ => by decide)

/-- An OpenCV image plane: the pixel value at (row, col). -/
abbrev Img : Type := Nat → Nat → Nat

/-- Default frame used for out-of-range list reads. -/
def zeroImg : Img := fun _ _ => 0

/-- Pixel (r, c) lies in the rectangle with corner (x, y), size w × h:
the numpy slice `frame[y:y+h, x:x+w]`. -/
def inRegion (x y w h r c : Nat) : Prop :=
  y ≤ r ∧ r < y + h ∧ x ≤ c ∧ c < x + w

instance (x y w h r c : Nat) : Decidable (inRegion x y w h r c) := by
  unfold inRegion; infer_instance

/-- Pixel (r, c) lies in the clamped rectangle of `region` on a
`frameW × frameH` frame. -/
def inRegionOf (frameW frameH : Nat) (region : DetectionRegion) (r c : Nat) : Prop :=
  inRegion (clampRegion frameW frameH region.bbox).1.toNat
    (clampRegion frameW frameH region.bbox).2.1.toNat
    (clampRegion frameW frameH region.bbox).2.2.1.toNat
    (clampRegion frameW frameH region.bbox).2.2.2.toNat r c

instance (frameW frameH : Nat) (region : DetectionRegion) (r c : Nat) :
    Decidable (inRegionOf frameW frameH region r c) := by
  unfold inRegionOf; infer_instance

/-- The mosaic block of `_apply_mosaic_to_frame` (lines 222–224):
`mosaic_size = max(1, min(strength, min(w, h) // 2))`, then the ROI is
downsampled to `mosaic_size × mosaic_size` and upsampled back to
`(w, h)`.  The two `cv2.resize` kernels (INTER_LINEAR and
INTER_NEAREST) are abstract parameters `resizeL`/`resizeN` taking the
image and its source and target dimensions (rows then columns). -/
def mosaicImage (resizeL resizeN : Img → Nat → Nat → Nat → Nat → Img)
    (strength : Int) (roi : Img) (w h : Int) : Img :=
  let mosaicSize := max 1 (min strength (min w h / 2))
  resizeN (resizeL roi h.toNat w.toNat mosaicSize.toNat mosaicSize.toNat)
    mosaicSize.toNat mosaicSize.toNat h.toNat w.toNat

/-- One iteration of the region loop of `_apply_mosaic_to_frame`
(lines 209–227): clamp the bbox, cut the ROI, build the mosaic block
and write it back in place over `frame[y:y+h, x:x+w]`. -/
def applyRegionToFrame (resizeL resizeN : Img → Nat → Nat → Nat → Nat → Img)
    (strength : Int) (frameW frameH : Nat) (frame : Img)
    (region : DetectionRegion) : Img :=
  let cl := clampRegion frameW frameH region.bbox
  let roi : Img := fun r c => frame (cl.2.1.toNat + r) (cl.1.toNat + c)
  let mosaic := mosaicImage resizeL resizeN strength roi cl.2.2.1 cl.2.2.2
  fun r c =>
    if inRegionOf frameW frameH region r c then
      mosaic (r - cl.2.1.toNat) (c - cl.1.toNat)
    else frame r c

/-- `VideoProcessor._apply_mosaic_to_frame`: the regions of one frame
applied in list order, each over the already-mosaicked pixel content
(the Python loop mutates `frame` in place). -/
def apply_mosaic_to_frame (resizeL resizeN : Img → Nat → Nat → Nat → Nat → Img)
    (strength : Int) (frameW frameH : Nat) (frame : Img)
    (regions : List DetectionRegion) : Img :=
  regions.foldl (applyRegionToFrame resizeL resizeN strength frameW frameH) frame

/-- An opened video: its decode properties and decoded frames. -/
structure Video where
  fps : ℚ
  width : Nat
  height : Nat
  frames : List Img

/-- The `while` loop of `apply_mosaic_regions` (lines 162–176): each
decoded frame is written exactly once, mosaicked when its frame id
(`_frame_count_to_frame_id`, i.e. `frame_count + 1`) has regions.  The
Python dict `_group_regions_by_frame` maps a key to the regions with
that `frame_id` in insertion order, which is exactly
`regions.filter (·.frame_id = frameId)`; key membership is
`regions.any`. -/
def mosaicFrames (resizeL resizeN : Img → Nat → Nat → Nat → Nat → Img)
    (strength : Int) (frameW frameH : Nat) (regions : List DetectionRegion) :
    List Img → Nat → List Img
  | [], _ => []
  | frame :: rest, frameCount =>
    (if regions.any (fun reg => reg.frame_id == (frameCount : Int) + 1) then
      apply_mosaic_to_frame resizeL resizeN strength frameW frameH frame
        (regions.filter (fun reg => reg.frame_id == (frameCount : Int) + 1))
    else frame) ::
      mosaicFrames resizeL resizeN strength frameW frameH regions rest (frameCount + 1)

/-- `VideoProcessor.apply_mosaic_regions` (lines 113–184) on an opened
video: zero regions raise `VideoProcessingError` before any decode work
(`Except.error`, no output written); otherwise the writer is opened
with the input's fps and resolution and every decoded frame is written
once, mosaicked where the region table resolves. -/
def apply_mosaic_regions (resizeL resizeN : Img → Nat → Nat → Nat → Nat → Img)
    (video : Video) (regions : List DetectionRegion) (strength : Int) :
    Except String Video :=
  if regions = [] then
    Except.error "No regions provided for mosaic processing"
  else
    Except.ok
      { fps := video.fps, width := video.width, height := video.height,
        frames := mosaicFrames resizeL resizeN strength video.width video.height
          regions video.frames 0 }

/-- A pixel outside a region's clamped rectangle is untouched by that
region's mosaic write-back. -/
lemma applyRegionToFrame_outside (resizeL resizeN : Img → Nat → Nat → Nat → Nat → Img)
    (strength : Int) (frameW frameH : Nat) (frame : Img)
    (region : DetectionRegion) (r c : Nat)
    (h : ¬ inRegionOf frameW frameH region r c) :
    applyRegionToFrame resizeL resizeN strength frameW frameH frame region r c =
      frame r c := by
  simp [applyRegionToFrame, h]

/-- A pixel outside every region's clamped rectangle is untouched by
the whole per-frame region loop. -/
lemma apply_mosaic_to_frame_outside (resizeL resizeN : Img → Nat → Nat → Nat → Nat → Img)
    (strength : Int) (frameW frameH : Nat) (r c : Nat) :
    ∀ (regions : List DetectionRegion) (frame : Img),
      (∀ reg ∈ regions, ¬ inRegionOf frameW frameH reg r c) →
      apply_mosaic_to_frame resizeL resizeN strength frameW frameH frame regions r c =
        frame r c := by
  intro regions
  induction regions with
  | nil => intro frame _; rfl
  | cons reg rest ih =>
    intro frame hout
    have hstep : apply_mosaic_to_frame resizeL resizeN strength frameW frameH frame
        (reg :: rest) =
        apply_mosaic_to_frame resizeL resizeN strength frameW frameH
          (applyRegionToFrame resizeL resizeN strength frameW frameH frame reg) rest := rfl
    rw [hstep,
      ih (applyRegionToFrame resizeL resizeN strength frameW frameH frame reg)
        (fun g hg => hout g (List.mem_cons_of_mem _ hg))]
    exact applyRegionToFrame_outside resizeL resizeN strength frameW frameH frame reg r c
      (hout reg (List.mem_cons_self _ _))

/-- The frame-writing loop writes exactly one frame per decoded frame. -/
lemma mosaicFrames_length (resizeL resizeN : Img → Nat → Nat → Nat → Nat → Img)
    (strength : Int) (frameW frameH : Nat) (regions : List DetectionRegion) :
    ∀ (frames : List Img) (n : Nat),
      (mosaicFrames resizeL resizeN strength frameW frameH regions frames n).length =
        frames.length := by
  intro frames
  induction frames with
  | nil => intro n; rfl
  | cons frame rest ih =>
    intro n
    simp only [mosaicFrames, List.length_cons, ih (n + 1)]

/-- A pixel outside every clamped rectangle of the regions resolved to
a frame is identical in the corresponding output frame. -/
lemma mosaicFrames_outside (resizeL resizeN : Img → Nat → Nat → Nat → Nat → Img)
    (strength : Int) (frameW frameH : Nat) (regions : List DetectionRegion) (r c : Nat) :
    ∀ (frames : List Img) (n i : Nat),
      (∀ reg ∈ regions, reg.frame_id = ((n + i : Nat) : Int) + 1 →
        ¬ inRegionOf frameW frameH reg r c) →
      (mosaicFrames resizeL resizeN strength frameW frameH regions frames n).getD i zeroImg r c =
        (frames.getD i zeroImg) r c := by
  intro frames
  induction frames with
  | nil => intro n i _; rfl
  | cons frame rest ih =>
    intro n i hout
    cases i with
    | zero =>
      simp only [mosaicFrames, List.getD_cons_zero]
      by_cases hany : regions.any (fun reg => reg.frame_id == (n : Int) + 1) = true
      · rw [if_pos hany]
        apply apply_mosaic_to_frame_outside
        intro reg hreg
        have hid : reg.frame_id = (n : Int) + 1 := by
          have := List.of_mem_filter hreg
          exact eq_of_beq this
        exact hout reg (List.mem_of_mem_filter hreg) (by simpa using hid)
      · rw [if_neg hany]
    | succ j =>
      simp only [mosaicFrames, List.getD_cons_succ]
      apply ih (n + 1) j
      intro reg hreg hid
      apply hout reg hreg
      have harith : n + 1 + j = n + (j + 1) := by omega
      rw [harith] at hid
      exact hid

/-- **C7.** Mosaic with zero supplied regions fails with the
`VideoProcessingError` message before any decode work: the result is an
error and no output video is produced, for every input video and
strength. -/
theorem apply_mosaic_regions_no_regions
    (resizeL resizeN : Img → Nat → Nat → Nat → Nat → Img)
    (video : Video) (strength : Int) :
    apply_mosaic_regions resizeL resizeN video [] strength =
      Except.error "No regions provided for mosaic processing" :=
  rfl

/-- **C6.** For a non-empty region list the mosaic pass succeeds and
the output video keeps the input's frame rate, resolution and frame
count; any pixel outside every clamped rectangle resolved to its frame
is unchanged, so only pixel content inside resolved regions differs. -/
theorem apply_mosaic_regions_preserves
    (resizeL resizeN : Img → Nat → Nat → Nat → Nat → Img)
    (video : Video) (regions : List DetectionRegion) (strength : Int)
    (hne : regions ≠ []) :
    ∃ out, apply_mosaic_regions resizeL resizeN video regions strength = Except.ok out ∧
      out.fps = video.fps ∧ out.width = video.width ∧ out.height = video.height ∧
      out.frames.length = video.frames.length ∧
      (∀ (i r c : Nat),
        (∀ reg ∈ regions, reg.frame_id = (i : Int) + 1 →
          ¬ inRegionOf video.width video.height reg r c) →
        (out.frames.getD i zeroImg) r c = (video.frames.getD i zeroImg) r c) := by
  refine ⟨⟨video.fps, video.width, video.height,
    mosaicFrames resizeL resizeN strength video.width video.height
      regions video.frames 0⟩, ?_, rfl, rfl, rfl, ?_, ?_⟩
  · simp [apply_mosaic_regions, hne]
  · exact mosaicFrames_length resizeL resizeN strength video.width video.height
      regions video.frames 0
  · intro i r c hout
    apply mosaicFrames_outside
    intro reg hreg hid
    apply hout reg hreg
    simpa using hid

/-- The identity resize kernel, used for concrete instances. -/
def idResize : Img → Nat → Nat → Nat → Nat → Img := fun f _ _ _ _ => f

/-- A one-frame 4×4 demo video. -/
def demoVideo : Video := ⟨30, 4, 4, [fun _ _ => 7]⟩

/-- A demo region on frame 1 of the demo video. -/
def demoRegionC6 : DetectionRegion := ⟨1, "phone", (0, 0, 2, 2), 1, "demo", none⟩

/-- Witness for C6: on a concrete one-frame video with one region the
mosaic pass succeeds, preserves fps, resolution and frame count, and
leaves pixels outside the resolved region untouched. -/
theorem apply_mosaic_regions_preserves_witness :
    ∃ out, apply_mosaic_regions idResize idResize demoVideo [demoRegionC6] 15 =
        Except.ok out ∧
      out.fps = demoVideo.fps ∧ out.width = demoVideo.width ∧
      out.height = demoVideo.height ∧
      out.frames.length = demoVideo.frames.length ∧
      (∀ (i r c : Nat),
        (∀ reg ∈ [demoRegionC6], reg.frame_id = (i : Int) + 1 →
          ¬ inRegionOf demoVideo.width demoVideo.height reg r c) →
        (out.frames.getD i zeroImg) r c = (demoVideo.frames.getD i zeroImg) r c) :=
  apply_mosaic_regions_preserves idResize idResize demoVideo [demoRegionC6] 15
    (by decide)

/-- **C5.** The clamp step keeps every bounding box inside the frame:
`0 ≤ x`, `0 ≤ y`, `x + w ≤ frame_width`, `y + h ≤ frame_height`, and
bbox `(0, 0, 10000, 10000)` on a 1920×1080 frame clamps to
`w = 1920, h = 1080`. -/
theorem clampRegion_bounds (frameW frameH : Nat) (bbox : Int × Int × Int × Int)
    (hW : 1 ≤ frameW) (hH : 1 ≤ frameH) :
    (0 ≤ (clampRegion frameW frameH bbox).1 ∧
     0 ≤ (clampRegion frameW frameH bbox).2.1 ∧
     (clampRegion frameW frameH bbox).1 + (clampRegion frameW frameH bbox).2.2.1 ≤
       (frameW : Int) ∧
     (clampRegion frameW frameH bbox).2.1 + (clampRegion frameW frameH bbox).2.2.2 ≤
       (frameH : Int)) ∧
    clampRegion 1920 1080 (0, 0, 10000, 10000) = (0, 0, 1920, 1080) := by
  constructor
  · obtain ⟨bx, byy, bw, bh⟩ := bbox
    show (0:Int) ≤ max 0 (min bx ((frameW : Int) - 1)) ∧
      (0:Int) ≤ max 0 (min byy ((frameH : Int) - 1)) ∧
      max 0 (min bx ((frameW : Int) - 1)) +
        max 1 (min bw ((frameW : Int) - max 0 (min bx ((frameW : Int) - 1)))) ≤
        (frameW : Int) ∧
      max 0 (min byy ((frameH : Int) - 1)) +
        max 1 (min bh ((frameH : Int) - max 0 (min byy ((frameH : Int) - 1)))) ≤
        (frameH : Int)
    have hx2 : max 0 (min bx ((frameW : Int) - 1)) ≤ (frameW : Int) - 1 :=
      max_le (by omega) (min_le_right _ _)
    have hy2 : max 0 (min byy ((frameH : Int) - 1)) ≤ (frameH : Int) - 1 :=
      max_le (by omega) (min_le_right _ _)
    have hw2 : max 1 (min bw ((frameW : Int) - max 0 (min bx ((frameW : Int) - 1)))) ≤
        (frameW : Int) - max 0 (min bx ((frameW : Int) - 1)) :=
      max_le (by omega) (min_le_right _ _)
    have hh2 : max 1 (min bh ((frameH : Int) - max 0 (min byy ((frameH : Int) - 1)))) ≤
        (frameH : Int) - max 0 (min byy ((frameH : Int) - 1)) :=
      max_le (by omega) (min_le_right _ _)
    exact ⟨le_max_left _ _, le_max_left _ _, by omega, by omega⟩
  · decide

/-- Witness for C5: scenario C, bbox `(0, 0, 10000, 10000)` on a
1920×1080 frame clamps to `(0, 0, 1920, 1080)` with no exception. -/
theorem clampRegion_bounds_witness :
    clampRegion 1920 1080 (0, 0, 10000, 10000) = (0, 0, 1920, 1080) :=
  (clampRegion_bounds 1920 1080 (0, 0, 10000, 10000) (by decide) (by decide)).2

/-- **C10.** The clamped width and height are always at least 1 and the
clamped corner stays strictly inside the frame, so a region with zero
or negative supplied width or height is not skipped: its clamped
corner pixel lies in the (non-empty, at least 1×1) region slice, and
the region loop rewrites that pixel with the mosaic block. -/
theorem clampRegion_nonempty (frameW frameH : Nat) (bbox : Int × Int × Int × Int)
    (hW : 1 ≤ frameW) (hH : 1 ≤ frameH) :
    (1 ≤ (clampRegion frameW frameH bbox).2.2.1 ∧
     1 ≤ (clampRegion frameW frameH bbox).2.2.2 ∧
     0 ≤ (clampRegion frameW frameH bbox).1 ∧
     (clampRegion frameW frameH bbox).1 ≤ (frameW : Int) - 1 ∧
     0 ≤ (clampRegion frameW frameH bbox).2.1 ∧
     (clampRegion frameW frameH bbox).2.1 ≤ (frameH : Int) - 1) ∧
    (∀ (region : DetectionRegion), region.bbox = bbox →
      inRegionOf frameW frameH region
        (clampRegion frameW frameH bbox).2.1.toNat
        (clampRegion frameW frameH bbox).1.toNat) ∧
    (∀ (resizeL resizeN : Img → Nat → Nat → Nat → Nat → Img) (strength : Int)
      (frame : Img) (region : DetectionRegion), region.bbox = bbox →
      applyRegionToFrame resizeL resizeN strength frameW frameH frame region
          (clampRegion frameW frameH bbox).2.1.toNat
          (clampRegion frameW frameH bbox).1.toNat =
        mosaicImage resizeL resizeN strength
          (fun r c => frame ((clampRegion frameW frameH bbox).2.1.toNat + r)
            ((clampRegion frameW frameH bbox).1.toNat + c))
          (clampRegion frameW frameH bbox).2.2.1
          (clampRegion frameW frameH bbox).2.2.2 0 0) := by
  have hw1 : (1:Int) ≤ (clampRegion frameW frameH bbox).2.2.1 := le_max_left _ _
  have hh1 : (1:Int) ≤ (clampRegion frameW frameH bbox).2.2.2 := le_max_left _ _
  have hx1 : (0:Int) ≤ (clampRegion frameW frameH bbox).1 := le_max_left _ _
  have hy1 : (0:Int) ≤ (clampRegion frameW frameH bbox).2.1 := le_max_left _ _
  have hx2 : (clampRegion frameW frameH bbox).1 ≤ (frameW : Int) - 1 :=
    max_le (by omega) (min_le_right _ _)
  have hy2 : (clampRegion frameW frameH bbox).2.1 ≤ (frameH : Int) - 1 :=
    max_le (by omega) (min_le_right _ _)
  have hin : ∀ (region : DetectionRegion), region.bbox = bbox →
      inRegionOf frameW frameH region
        (clampRegion frameW frameH bbox).2.1.toNat
        (clampRegion frameW frameH bbox).1.toNat := by
    intro region hb
    unfold inRegionOf inRegion
    rw [hb]
    refine ⟨le_refl _, by omega, le_refl _, by omega⟩
  refine ⟨⟨hw1, hh1, hx1, hx2, hy1, hy2⟩, hin, ?_⟩
  intro resizeL resizeN strength frame region hb
  have h := hin region hb
  simp [applyRegionToFrame, hb, h, Nat.sub_self]

/-- Witness for C10: a region supplied with width 0 and height −5 on a
1920×1080 frame still clamps to a region of width and height at least
1 (it is mosaicked, not skipped). -/
theorem clampRegion_nonempty_witness :
    1 ≤ (clampRegion 1920 1080 (100, 100, 0, -5)).2.2.1 ∧
    1 ≤ (clampRegion 1920 1080 (100, 100, 0, -5)).2.2.2 :=
  ⟨(clampRegion_nonempty 1920 1080 (100, 100, 0, -5) (by decide) (by decide)).1.1,
   (clampRegion_nonempty 1920 1080 (100, 100, 0, -5) (by decide) (by decide)).1.2.1⟩

/-- The issues a validator check can report.  In the source every issue
is a formatted string appended to `issues`; the `"; ".join(issues)`
message and `details["issues"]` both carry the same list, modelled here
structurally with the cited numeric payloads. -/
inductive Issue
  | cannotOpenVideo
  | frameCountMismatch (expected actual : Nat)
  | frameIdOutOfRange (minId maxId totalFrames : Nat)
  | timestampOutOfRange (duration : ℚ)
  | missingFrameFiles (count : Nat)
  | unevenDistribution (avgInterval maxDeviation : ℚ)
  | validationException
  | noDetections
  | tooManyDetections (detectionCount frameCount : Nat)
  | lowCoverage (rate : ℚ)
  | coordOutOfRange (count : Nat)
  | lowAvgConfidence (avg : ℚ)
  | tooManyLowConfidence (low total : Nat)
  | largeRegions (count : Nat)
  | tinyRegions (count : Nat)
  | sampleFrameMissing
  | sampleFrameUnreadable
  | invalidRegions (count : Nat)
  | noValidRegions
  | mosaicNotVisible
  | mosaicFuncFailed
deriving DecidableEq

/-- `ValidationResult` from `utils/tracking_validator.py`: stage name,
`"pass"`/`"fail"` status and the issue list (the message is the join of
the rendered issues).  The timestamp field is wall-clock and omitted. -/
structure ValidationResult where
  stage : String
  status : String
  issues : List Issue
deriving DecidableEq

/-- The decode properties `validate_frame_extraction` reads from an
opened video. -/
structure VideoMeta where
  total_frames : Nat
  fps : ℚ
deriving DecidableEq

/-- The `video_info` dict passed to `validate_llm_detection`. -/
structure VideoInfo where
  width : Nat
  height : Nat
deriving DecidableEq

/-- `TrackingValidator.validate_frame_extraction`
(`utils/tracking_validator.py` lines 49–148).  `fileExists` models
`os.path.exists` on a frame's image path; `videoMeta = none` models an
unopenable video (the early `return` that does NOT append to
`validation_results`); an empty frame list makes Python's
`min(frame_ids)` raise `ValueError`, caught by the `except` branch
which appends a generic failure. -/
def validate_frame_extraction (fileExists : FrameInfo → Bool)
    (results : List ValidationResult) (videoMeta : Option VideoMeta)
    (extracted_frames : List FrameInfo) (expected_count : Option Nat) :
    ValidationResult × List ValidationResult :=
  match videoMeta with
  | none => (⟨"frame_extraction", "fail", [Issue.cannotOpenVideo]⟩, results)
  | some vm =>
    match extracted_frames with
    | [] =>
      let r : ValidationResult := ⟨"frame_extraction", "fail", [Issue.validationException]⟩
      (r, results ++ [r])
    | f0 :: fs =>
      let frames := f0 :: fs
      let duration : ℚ := if 0 < vm.fps then (vm.total_frames : ℚ) / vm.fps else 0
      let frame_ids := frames.map FrameInfo.frame_id
      let minId := (fs.map FrameInfo.frame_id).foldl min f0.frame_id
      let maxId := (fs.map FrameInfo.frame_id).foldl max f0.frame_id
      let issues1 := match expected_count with
        | some n => if n ≠ 0 ∧ frames.length ≠ n then
            [Issue.frameCountMismatch n frames.length] else []
        | none => []
      let issues2 := if minId < 1 ∨ vm.total_frames < maxId then
          [Issue.frameIdOutOfRange minId maxId vm.total_frames] else []
      let issues3 := if frames.any (fun fr =>
            decide (fr.timestamp < 0 ∨ duration < fr.timestamp)) then
          [Issue.timestampOutOfRange duration] else []
      let missing := (frames.filter (fun fr => !fileExists fr)).length
      let issues4 := if missing ≠ 0 then [Issue.missingFrameFiles missing] else []
      let issues5 :=
        if 1 < frame_ids.length then
          let intervals : List Int :=
            List.zipWith (fun a b => (b : Int) - (a : Int)) frame_ids frame_ids.tail
          let avg : ℚ := ((intervals.foldl (· + ·) 0 : Int) : ℚ) / (intervals.length : ℚ)
          let maxDev : ℚ := (intervals.map (fun iv => |(iv : ℚ) - avg|)).foldl max 0
          if avg * (1 / 2) < maxDev then [Issue.unevenDistribution avg maxDev] else []
        else []
      let issues := issues1 ++ issues2 ++ issues3 ++ issues4 ++ issues5
      let r : ValidationResult :=
        ⟨"frame_extraction", if issues = [] then "pass" else "fail", issues⟩
      (r, results ++ [r])

/-- `coverage_rate` of `validate_llm_detection` (lines 179–181):
distinct detected frame ids over distinct sampled frame ids, 0 when no
frames were sampled. -/
def coverageRate (frames : List FrameInfo) (detections : List DetectionRegion) : ℚ :=
  if frames = [] then 0
  else ((detections.map DetectionRegion.frame_id).dedup.length : ℚ) /
    ((frames.map FrameInfo.frame_id).dedup.length : ℚ)

/-- The issue list built by `validate_llm_detection` (lines 167–230) in
source order: detection count, frame coverage, coordinate bounds,
confidence distribution, region sizes. -/
def detectionIssues (frames : List FrameInfo) (detections : List DetectionRegion)
    (video_info : Option VideoInfo) : List Issue :=
  let frame_count := frames.length
  let detection_count := detections.length
  let issues1 := if detection_count = 0 then [Issue.noDetections]
    else if frame_count * 3 < detection_count then
      [Issue.tooManyDetections detection_count frame_count] else []
  let coverage := coverageRate frames detections
  let issues2 := if coverage < 1 / 2 then [Issue.lowCoverage coverage] else []
  let issues3 := match video_info with
    | some vi =>
      let coordIssues := detections.filter (fun det =>
        decide (det.bbox.1 < 0 ∨ det.bbox.2.1 < 0 ∨
          (vi.width : Int) < det.bbox.1 + det.bbox.2.2.1 ∨
          (vi.height : Int) < det.bbox.2.1 + det.bbox.2.2.2))
      if coordIssues ≠ [] then [Issue.coordOutOfRange coordIssues.length] else []
    | none => []
  let issues4 :=
    if detections ≠ [] then
      let avg : ℚ := (detections.map DetectionRegion.confidence).foldl (· + ·) 0 /
        (detection_count : ℚ)
      let low := (detections.filter (fun det => decide (det.confidence < 1 / 2))).length
      (if avg < 7 / 10 then [Issue.lowAvgConfidence avg] else []) ++
        (if (detection_count : ℚ) * (3 / 10) < (low : ℚ) then
          [Issue.tooManyLowConfidence low detection_count] else [])
    else []
  let issues5 := match video_info with
    | some vi =>
      let videoArea : ℚ := ((vi.width * vi.height : Nat) : ℚ)
      let ratio := fun (det : DetectionRegion) =>
        ((det.bbox.2.2.1 * det.bbox.2.2.2 : Int) : ℚ) / videoArea
      let large := (detections.filter (fun det => decide (1 / 4 < ratio det))).length
      let tiny := (detections.filter (fun det =>
        decide (¬ (1 / 4 < ratio det) ∧ ratio det < 1 / 1000))).length
      (if 0 < large then [Issue.largeRegions large] else []) ++
        (if (detections.length : ℚ) * (1 / 5) < (tiny : ℚ) then
          [Issue.tinyRegions tiny] else [])
    | none => []
  issues1 ++ issues2 ++ issues3 ++ issues4 ++ issues5

/-- The division-by-zero condition of the region size check: a zero
video area with detections present makes `area / video_area` raise. -/
def detectionExceptGuard (detections : List DetectionRegion) :
    Option VideoInfo → Bool
  | some vi => decide (vi.width * vi.height = 0) && !detections.isEmpty
  | none => false

/-- `TrackingValidator.validate_llm_detection` (lines 150–281).  When
the video info carries a zero area and there are detections, the region
size check divides by zero, so Python raises and the `except` branch
appends a generic failure; otherwise the issue list decides the status,
and the result is always appended. -/
def validate_llm_detection (results : List ValidationResult)
    (frames : List FrameInfo) (detections : List DetectionRegion)
    (video_info : Option VideoInfo) : ValidationResult × List ValidationResult :=
  if detectionExceptGuard detections video_info then
    let r : ValidationResult := ⟨"llm_detection", "fail", [Issue.validationException]⟩
    (r, results ++ [r])
  else
    let issues := detectionIssues frames detections video_info
    let r : ValidationResult :=
      ⟨"llm_detection", if issues = [] then "pass" else "fail", issues⟩
    (r, results ++ [r])

/-- A decoded sample frame as read by `cv2.imread`. -/
structure ImageFrame where
  width : Nat
  height : Nat
  px : Img

/-- Absolute pixel difference (`cv2.absdiff` on unsigned pixels). -/
def pixDiff (a b : Nat) : Nat := max a b - min a b

/-- Mean absolute difference over the ROI `frame[y:y+h, x:x+w]` of the
original and processed sample frame (`np.mean(cv2.absdiff(...))`). -/
def roiDiffScore (orig proc : Img) (bbox : Int × Int × Int × Int) : ℚ :=
  let x := bbox.1.toNat
  let y := bbox.2.1.toNat
  let w := bbox.2.2.1.toNat
  let h := bbox.2.2.2.toNat
  (((List.range h).map (fun r => ((List.range w).map (fun c =>
      ((pixDiff (orig (y + r) (x + c)) (proc (y + r) (x + c)) : Nat) : ℚ))).foldl (· + ·) 0)).foldl
    (· + ·) 0) / ((w * h : Nat) : ℚ)

/-- The `for region in valid_regions: processed = mosaic_func(...)`
loop inside `validate_mosaic_application`'s inner `try`: `mosaicFunc`
returning `none` models the function raising. -/
def applyAllRegions (mosaicFunc : Img → Int × Int × Int × Int → Int → Option Img)
    (strength : Int) : List DetectionRegion → Img → Option Img
  | [], f => some f
  | reg :: rest, f =>
    match mosaicFunc f reg.bbox strength with
    | none => none
    | some f2 => applyAllRegions mosaicFunc strength rest f2

/-- The `valid_regions` filter of `validate_mosaic_application`
(lines 604–616): bbox inside the sample frame with positive size. -/
def validRegionsFor (img : ImageFrame) (regions : List DetectionRegion) :
    List DetectionRegion :=
  regions.filter (fun reg =>
    decide (0 ≤ reg.bbox.1 ∧ 0 ≤ reg.bbox.2.1 ∧
      reg.bbox.1 + reg.bbox.2.2.1 ≤ (img.width : Int) ∧
      reg.bbox.2.1 + reg.bbox.2.2.2 ≤ (img.height : Int) ∧
      0 < reg.bbox.2.2.1 ∧ 0 < reg.bbox.2.2.2))

/-- The part of `validate_mosaic_application` that runs once the
sample frame is read: region-coordinate validation, mosaic application
through the caller-supplied `mosaic_func`, and the pixel-difference
visibility check.  The no-valid-region early `return` does NOT append
to `validation_results`; the normal path appends its one result. -/
def validate_mosaic_body (results : List ValidationResult) (img : ImageFrame)
    (mosaicFunc : Img → Int × Int × Int × Int → Int → Option Img)
    (regions : List DetectionRegion) (mosaic_strength : Int) :
    ValidationResult × List ValidationResult :=
  if validRegionsFor img regions = [] then
    (⟨"mosaic_application", "fail", [Issue.noValidRegions]⟩, results)
  else
    let invalid := regions.length - (validRegionsFor img regions).length
    let issues1 := if invalid ≠ 0 then [Issue.invalidRegions invalid] else []
    let issues2 := match applyAllRegions mosaicFunc mosaic_strength
        (validRegionsFor img regions) img.px with
      | none => [Issue.mosaicFuncFailed]
      | some processed =>
        if (validRegionsFor img regions).any (fun reg =>
            decide (1 < roiDiffScore img.px processed reg.bbox)) then
          []
        else [Issue.mosaicNotVisible]
    let issues := issues1 ++ issues2
    let r : ValidationResult :=
      ⟨"mosaic_application", if issues = [] then "pass" else "fail", issues⟩
    (r, results ++ [r])

/-- `TrackingValidator.validate_mosaic_application` (lines 565–708).
`sampleExists` models `os.path.exists(sample_frame_path)`, `decoded`
the `cv2.imread` result.  The three early `return`s (missing sample,
unreadable sample, no valid region) do NOT append to
`validation_results`; every other path appends the one result. -/
def validate_mosaic_application (results : List ValidationResult)
    (sampleExists : Bool) (decoded : Option ImageFrame)
    (mosaicFunc : Img → Int × Int × Int × Int → Int → Option Img)
    (regions : List DetectionRegion) (mosaic_strength : Int) :
    ValidationResult × List ValidationResult :=
  if sampleExists = false then
    (⟨"mosaic_application", "fail", [Issue.sampleFrameMissing]⟩, results)
  else
    match decoded with
    | none => (⟨"mosaic_application", "fail", [Issue.sampleFrameUnreadable]⟩, results)
    | some img => validate_mosaic_body results img mosaicFunc regions mosaic_strength

/-- Low frame coverage always shows up in the detection issue list. -/
lemma lowCoverage_mem_detectionIssues (frames : List FrameInfo)
    (detections : List DetectionRegion) (video_info : Option VideoInfo)
    (hcov : coverageRate frames detections < 1 / 2) :
    Issue.lowCoverage (coverageRate frames detections) ∈
      detectionIssues frames detections video_info := by
  simp only [detectionIssues, if_pos hcov, List.mem_append]
  left; left; left
  right
  exact List.mem_singleton.mpr rfl

/-- **C8.** Whenever the fraction of sampled frames having at least one
detection is below 50 % (and the supplied video info, if any, has a
non-degenerate area, so no division-by-zero exception intervenes),
`validate_llm_detection` returns a `ValidationResult` with stage
`llm_detection` and status `fail` whose issue list cites the computed
coverage rate. -/
theorem validate_llm_detection_low_coverage (results : List ValidationResult)
    (frames : List FrameInfo) (detections : List DetectionRegion)
    (video_info : Option VideoInfo)
    (hvi : ∀ vi, video_info = some vi → 0 < vi.width * vi.height)
    (hcov : coverageRate frames detections < 1 / 2) :
    (validate_llm_detection results frames detections video_info).1.stage =
      "llm_detection" ∧
    (validate_llm_detection results frames detections video_info).1.status = "fail" ∧
    Issue.lowCoverage (coverageRate frames detections) ∈
      (validate_llm_detection results frames detections video_info).1.issues := by
  have hmem := lowCoverage_mem_detectionIssues frames detections video_info hcov
  have hne : detectionIssues frames detections video_info ≠ [] :=
    List.ne_nil_of_mem hmem
  have hval : (validate_llm_detection results frames detections video_info).1 =
      ⟨"llm_detection",
        if detectionIssues frames detections video_info = [] then "pass" else "fail",
        detectionIssues frames detections video_info⟩ := by
    cases video_info with
    | none => rfl
    | some vi =>
      have h0 : vi.width * vi.height ≠ 0 := Nat.pos_iff_ne_zero.mp (hvi vi rfl)
      have hg : detectionExceptGuard detections (some vi) = false := by
        simp [detectionExceptGuard, h0]
      unfold validate_llm_detection
      rw [hg]
      rfl
  rw [hval]
  exact ⟨rfl, if_neg hne, hmem⟩

/-- The ten sampled frames of scenario E. -/
def demoFrames10 : List FrameInfo :=
  (List.range 10).map (fun i => ⟨i + 1, 0, "frame.jpg", 1920, 1080⟩)

/-- The five detections of scenario E, spread over sampled frames 1
and 2 only. -/
def demoDets5 : List DetectionRegion :=
  [⟨1, "phone", (100, 100, 200, 200), 9 / 10, "d", none⟩,
   ⟨1, "phone", (120, 100, 200, 200), 9 / 10, "d", none⟩,
   ⟨1, "phone", (140, 100, 200, 200), 9 / 10, "d", none⟩,
   ⟨2, "phone", (100, 100, 200, 200), 9 / 10, "d", none⟩,
   ⟨2, "phone", (120, 100, 200, 200), 9 / 10, "d", none⟩]

/-- Witness for C8: scenario E, 5 detections over 2 of 10 sampled
frames on a 1920×1080 video: the coverage rate is 1/5 = 0.2, the stage
fails, and the issue list cites the rate. -/
theorem validate_llm_detection_low_coverage_witness :
    coverageRate demoFrames10 demoDets5 = 1 / 5 ∧
    (validate_llm_detection [] demoFrames10 demoDets5 (some ⟨1920, 1080⟩)).1.status =
      "fail" ∧
    Issue.lowCoverage (coverageRate demoFrames10 demoDets5) ∈
      (validate_llm_detection [] demoFrames10 demoDets5 (some ⟨1920, 1080⟩)).1.issues := by
  have hA : (demoDets5.map DetectionRegion.frame_id).dedup.length = 2 := by decide
  have hB : (demoFrames10.map FrameInfo.frame_id).dedup.length = 10 := by decide
  have hrate : coverageRate demoFrames10 demoDets5 = 1 / 5 := by
    unfold coverageRate
    rw [if_neg (by decide), hA, hB]
    norm_num
  have hcov : coverageRate demoFrames10 demoDets5 < 1 / 2 := by
    rw [hrate]; norm_num
  have h := validate_llm_detection_low_coverage [] demoFrames10 demoDets5
    (some ⟨1920, 1080⟩) (by intro vi hv; injection hv with h2; rw [← h2]; decide) hcov
  exact ⟨hrate, h.2.1, h.2.2⟩

/-- **C9 counterexample.** `validate_frame_extraction` on an unopenable
video returns a `ValidationResult` through the early `return` but does
not append it: starting from an empty accumulated list, the list stays
empty instead of gaining exactly one element. -/
theorem validator_append_counterexample :
    (validate_frame_extraction (fun _ => true) [] none [] none).2 = [] ∧
    (validate_frame_extraction (fun _ => true) [] none [] none).2 ≠
      [(validate_frame_extraction (fun _ => true) [] none [] none).1] := by
  exact ⟨rfl, by decide⟩

/-- **C9 (amended).** Every embedded check is total — it returns one
`ValidationResult` with its stage name rather than propagating an
exception — and appends at most one result to the accumulated list:
exactly one on the normal and exception-handling paths, none on the
early-return guard paths (unopenable video; missing or unreadable
sample frame; no valid mosaic region). -/
theorem validator_checks_append_at_most_one
    (fe : FrameInfo → Bool) (res1 res2 res3 : List ValidationResult)
    (vm : Option VideoMeta) (frames : List FrameInfo) (expected : Option Nat)
    (lframes : List FrameInfo) (dets : List DetectionRegion) (vinfo : Option VideoInfo)
    (sampleExists : Bool) (decoded : Option ImageFrame)
    (mosaicFunc : Img → Int × Int × Int × Int → Int → Option Img)
    (regions : List DetectionRegion) (strength : Int) :
    ((validate_frame_extraction fe res1 vm frames expected).1.stage =
        "frame_extraction" ∧
      ((validate_frame_extraction fe res1 vm frames expected).2 =
          res1 ++ [(validate_frame_extraction fe res1 vm frames expected).1] ∨
        (validate_frame_extraction fe res1 vm frames expected).2 = res1)) ∧
    ((validate_llm_detection res2 lframes dets vinfo).1.stage = "llm_detection" ∧
      (validate_llm_detection res2 lframes dets vinfo).2 =
        res2 ++ [(validate_llm_detection res2 lframes dets vinfo).1]) ∧
    ((validate_mosaic_application res3 sampleExists decoded mosaicFunc regions
        strength).1.stage = "mosaic_application" ∧
      ((validate_mosaic_application res3 sampleExists decoded mosaicFunc regions
          strength).2 =
          res3 ++ [(validate_mosaic_application res3 sampleExists decoded mosaicFunc
            regions strength).1] ∨
        (validate_mosaic_application res3 sampleExists decoded mosaicFunc regions
          strength).2 = res3)) := by
  refine ⟨?_, ?_, ?_⟩
  · cases vm with
    | none => exact ⟨rfl, Or.inr rfl⟩
    | some vm' =>
      cases frames with
      | nil => exact ⟨rfl, Or.inl rfl⟩
      | cons f fs => exact ⟨rfl, Or.inl rfl⟩
  · unfold validate_llm_detection
    split
    · exact ⟨rfl, rfl⟩
    · exact ⟨rfl, rfl⟩
  · cases sampleExists with
    | false => exact ⟨rfl, Or.inr rfl⟩
    | true =>
      cases decoded with
      | none => exact ⟨rfl, Or.inr rfl⟩
      | some img =>
        have hred : validate_mosaic_application res3 true (some img) mosaicFunc
            regions strength =
            validate_mosaic_body res3 img mosaicFunc regions strength := rfl
        rw [hred]
        by_cases hv : validRegionsFor img regions = []
        · have heq : validate_mosaic_body res3 img mosaicFunc regions strength =
              (⟨"mosaic_application", "fail", [Issue.noValidRegions]⟩, res3) := by
            unfold validate_mosaic_body
            rw [if_pos hv]
          rw [heq]
          exact ⟨rfl, Or.inr rfl⟩
        · refine ⟨?_, Or.inl ?_⟩
          · unfold validate_mosaic_body
            rw [if_neg hv]
          · unfold validate_mosaic_body
            rw [if_neg hv]
